import Mathlib

attribute [local semireducible] Rat.add Rat.sub Rat.mul Rat.inv Rat.ofScientific

set_option maxRecDepth 100000

/-
Verification of the Winston-Lutz analysis module (pylinac/winston_lutz.py).

The embedding below translates the module into Lean definitions:

- machine integers / floats become exact rationals;
- the image pixel array becomes a list of rows of rationals;
- fallible operations return Except / Option;
- helper functions of pylinac.core (is_close, bounding_box, filled_area_ratio,
  SingleProfile.fwxm_center, remove_edges, invert) are repository code that is
  not present under src/; those are modelled from the spec and marked
  "Modelled from the spec:" in their doc comments.  External library calls
  (numpy percentile, scipy label / binary_erosion / center_of_mass, Python
  list.sort) are translated according to their documented semantics.
-/

namespace WinstonLutz

/-- Geometric point with x, y, z coordinates (z defaulted to 0 when absent),
mirroring pylinac.core.geometry.Point as described by the spec data model. -/
structure Point where
  x : ℚ
  y : ℚ
  z : ℚ
deriving DecidableEq, Repr

/-- Geometric vector, mirroring pylinac.core.geometry.Vector (x, y, z). -/
structure Vector where
  x : ℚ
  y : ℚ
  z : ℚ
deriving DecidableEq, Repr

/-- The five image classes of `WLImage.variable_axis` (the string constants
GANTRY, COLLIMATOR, COUCH, COMBO, REFERENCE of the source). -/
inductive Axis where
  | gantry
  | collimator
  | couch
  | combo
  | reference
deriving DecidableEq, Repr

/-- Modelled from the spec: pylinac.core.utilities.is_close (not under src/).
True when the value lies within delta of one of the targets ("each compared to
0/360 within a small angular tolerance"). -/
def is_close (val : ℚ) (targets : List ℚ) (delta : ℚ) : Bool :=
  targets.any (fun t => decide (t - delta < val) && decide (val < t + delta))

/-- A Winston-Lutz EPID image after construction: the three raw metadata
angles (GantryAngle, BeamLimitingDeviceAngle, PatientSupportAngle), the
detected BB and field-CAX points, the EPID panel center point, the
pixels-per-mm scale, and a tag distinguishing otherwise equal images.
The detection pipeline that populates the points is embedded separately
(find_field_centroid, find_bb, clean_edges below). -/
structure WLImage where
  rawGantry : ℚ
  rawColl : ℚ
  rawCouch : ℚ
  bb : Point
  field_cax : Point
  epid : Point
  dpmm : ℚ
  tag : ℕ
deriving DecidableEq, Repr

/-- WLImage.gantry_angle: snaps the raw metadata angle to 0 when it is close
to 0 or 360 (delta = 1). -/
def gantry_angle (i : WLImage) : ℚ :=
  if is_close i.rawGantry [0, 360] 1 then 0 else i.rawGantry

/-- WLImage.collimator_angle: snaps the raw metadata angle to 0 when it is
close to 0 or 360 (delta = 1). -/
def collimator_angle (i : WLImage) : ℚ :=
  if is_close i.rawColl [0, 360] 1 then 0 else i.rawColl

/-- WLImage.couch_angle: snaps the raw metadata angle to 0 when it is close
to 0 or 360 (delta = 1). -/
def couch_angle (i : WLImage) : ℚ :=
  if is_close i.rawCouch [0, 360] 1 then 0 else i.rawCouch

/-- WLImage.variable_axis: classifies the image by which axis deviates from
0/360 (default tolerance delta = 1 of is_close, as in the source). -/
def variable_axis (i : WLImage) : Axis :=
  let G0 := is_close (gantry_angle i) [0, 360] 1
  let B0 := is_close (collimator_angle i) [0, 360] 1
  let P0 := is_close (couch_angle i) [0, 360] 1
  if G0 && B0 && !P0 then Axis.couch
  else if G0 && P0 && !B0 then Axis.collimator
  else if P0 && B0 && !G0 then Axis.gantry
  else if P0 && B0 && G0 then Axis.reference
  else Axis.combo

/-- WLImage.cax2bb_vector: (bb - field_cax) / dpmm, componentwise. -/
def cax2bb_vector (i : WLImage) : Vector :=
  ⟨(i.bb.x - i.field_cax.x) / i.dpmm,
   (i.bb.y - i.field_cax.y) / i.dpmm,
   (i.bb.z - i.field_cax.z) / i.dpmm⟩

/-- WLImage.cax2epid_vector: (epid - field_cax) / dpmm, componentwise. -/
def cax2epid_vector (i : WLImage) : Vector :=
  ⟨(i.epid.x - i.field_cax.x) / i.dpmm,
   (i.epid.y - i.field_cax.y) / i.dpmm,
   (i.epid.z - i.field_cax.z) / i.dpmm⟩

/-- WLImage.bb_z_offset: -cax2bb_vector.y when the couch angle is within
delta = 2 of 0/360; otherwise the Python property implicitly returns None. -/
def bb_z_offset (i : WLImage) : Option ℚ :=
  if is_close (couch_angle i) [0, 360] 2 then some (-(cax2bb_vector i).y) else none

/-- WLImage.epid_z_offset: -cax2epid_vector.y when the couch angle is within
delta = 2 of 0/360; otherwise the Python property implicitly returns None. -/
def epid_z_offset (i : WLImage) : Option ℚ :=
  if is_close (couch_angle i) [0, 360] 2 then some (-(cax2epid_vector i).y) else none

/-- The image selection of WinstonLutz._minimize_axis: all images whose
variable_axis is the requested axis or Reference. -/
def axisThings (a : Axis) (imgs : List WLImage) : List WLImage :=
  imgs.filter (fun i => variable_axis i == a || variable_axis i == Axis.reference)

/-- The insufficient-data error message raised by _minimize_axis. -/
def notEnoughMsg : String :=
  "Not enough images of the given type to identify the axis isocenter"

/-- WinstonLutz._minimize_axis: selects the qualifying images and raises the
insufficient-data ValueError when one or fewer qualify; otherwise it runs the
bounded scipy optimization, which always yields a result, so success is
modelled as Except.ok carrying the selected optimization inputs. -/
def minimize_axis (a : Axis) (imgs : List WLImage) : Except String (List WLImage) :=
  let things := axisThings a imgs
  if things.length ≤ 1 then Except.error notEnoughMsg else Except.ok things

/-- The fields of the scipy OptimizeResult consumed by the iso2bb properties:
the solution coordinates x[0..3] and the minimized objective value. -/
structure MinResult where
  x0 : ℚ
  x1 : ℚ
  x2 : ℚ
  x3 : ℚ
  fmin : ℚ
deriving DecidableEq, Repr

/-- WinstonLutz.gantry_iso2bb_vector as the source computes it from the
minimization result: Vector(x[0], x[1], x[2]) with no sign change. -/
def gantry_iso2bb_vector (r : MinResult) : Vector :=
  ⟨r.x0, r.x1, r.x2⟩

/-- WinstonLutz.collimator_iso2bb_vector: Vector(x[0], x[1]) (z defaults 0). -/
def collimator_iso2bb_vector (r : MinResult) : Vector :=
  ⟨r.x0, r.x1, 0⟩

/-- WinstonLutz.couch_iso2bb_vector: Vector(x[0], x[1]) (z defaults 0). -/
def couch_iso2bb_vector (r : MinResult) : Vector :=
  ⟨r.x0, r.x1, 0⟩

/-- The ordering key of ImageManager.__init__:
(gantry_angle, collimator_angle, couch_angle). -/
def sortKey (i : WLImage) : ℚ × ℚ × ℚ :=
  (gantry_angle i, collimator_angle i, couch_angle i)

/-- Strict lexicographic comparison of angle-tuple keys (Python tuple <). -/
def keyLt (a b : ℚ × ℚ × ℚ) : Bool :=
  decide (a.1 < b.1) ||
    (decide (a.1 = b.1) &&
      (decide (a.2.1 < b.2.1) ||
        (decide (a.2.1 = b.2.1) && decide (a.2.2 < b.2.2))))

/-- Stable insertion: x is placed before the first element whose key is not
strictly below the key of x, so elements with equal keys keep their original
relative order. -/
def insertImg (x : WLImage) : List WLImage → List WLImage
  | [] => [x]
  | y :: ys => if keyLt (sortKey y) (sortKey x) then y :: insertImg x ys else x :: y :: ys

/-- The list.sort call of ImageManager.__init__: a stable ascending sort by
the angle-tuple key.  A stable sort is determined uniquely by its contract,
so this insertion sort is extensionally the Python Timsort-by-key. -/
def sortImages : List WLImage → List WLImage
  | [] => []
  | x :: xs => insertImg x (sortImages xs)

/-- Convenience constructor: an image with the given raw angles and neutral
detection data. -/
def mkImg (g b p : ℚ) (tag : ℕ) : WLImage :=
  ⟨g, b, p, ⟨0, 0, 0⟩, ⟨0, 0, 0⟩, ⟨0, 0, 0⟩, 1, tag⟩

/-- Reference image at 0 degrees used by the ordering claim. -/
def img0 : WLImage := mkImg 0 0 0 0

/-- Gantry image at 90 degrees used by the ordering claim. -/
def img90 : WLImage := mkImg 90 0 0 1

/-- Gantry image at 270 degrees used by the ordering claim. -/
def img270 : WLImage := mkImg 270 0 0 2

/-- The pixel array of an image: a list of rows of rational intensities. -/
abbrev Grid := List (List ℚ)

/-- A binary mask over a pixel array. -/
abbrev Mask := List (List Bool)

/-- Number of rows of a 2D array (shape[0]). -/
def gridRows (g : List (List α)) : ℕ := g.length

/-- Number of columns of a 2D array (shape[1], read from the first row). -/
def gridCols (g : List (List α)) : ℕ := (g.headD []).length

/-- Concatenation of the rows: the flattened 1D view of a 2D array. -/
def cat : List (List α) → List α
  | [] => []
  | r :: rs => r ++ cat rs

/-- Ascending insertion used to sort intensity values. -/
def insertAsc (x : ℚ) : List ℚ → List ℚ
  | [] => [x]
  | y :: ys => if x ≤ y then x :: y :: ys else y :: insertAsc x ys

/-- Ascending sort of intensity values (the sort underlying np.percentile). -/
def sortAsc (l : List ℚ) : List ℚ := l.foldr insertAsc []

/-- Minimum of a list of rationals (0 for the empty list). -/
def listMin : List ℚ → ℚ
  | [] => 0
  | x :: xs => xs.foldl min x

/-- Maximum of a list of rationals (0 for the empty list). -/
def listMax : List ℚ → ℚ
  | [] => 0
  | x :: xs => xs.foldl max x

/-- np.percentile with the default linear interpolation: position
q * (n - 1) / 100 into the sorted data, linearly interpolated between the
two neighbouring samples. -/
def percentile (q : ℚ) (l : List ℚ) : ℚ :=
  let s := sortAsc l
  let n := s.length
  if n = 0 then 0
  else
    let pos : ℚ := q * ((n : ℚ) - 1) / 100
    let i : ℕ := (⌊pos⌋).toNat
    let a := s.getD i 0
    let b := s.getD (i + 1) a
    a + (pos - (i : ℚ)) * (b - a)

/-- The border band inspected by _clean_edges.has_noise: the top and bottom
window_size rows and the left and right window_size columns, concatenated. -/
def bandPixels (g : Grid) (w : ℕ) : List ℚ :=
  cat (g.take w) ++ cat (g.map (fun r => r.take w))
    ++ cat (g.drop (gridRows g - w)) ++ cat (g.map (fun r => r.drop (r.length - w)))

/-- _clean_edges.has_noise: true when some border-band pixel lies more than
10 percent of the (near_max - near_min) range below the 5th percentile or
above the 99.5th percentile of the current array. -/
def has_noise (g : Grid) (w : ℕ) : Bool :=
  let nearMin := percentile 5 (cat g)
  let nearMax := percentile (995/10) (cat g)
  let imgRange := nearMax - nearMin
  let band := bandPixels g w
  decide (listMin band < nearMin - imgRange / 10)
    || decide (listMax band > nearMax + imgRange / 10)

/-- Modelled from the spec: core.image remove_edges (not under src/) strips
the border band of the given width from all four sides of the array. -/
def remove_edges (w : ℕ) (g : Grid) : Grid :=
  ((g.drop w).take (gridRows g - 2 * w)).map (fun r => (r.drop w).take (r.length - 2 * w))

/-- The while-loop of _clean_edges: strip the border while has_noise holds
and the safety counter is positive.  The fuel equals the number of times the
rational counter can be decremented before reaching 0 or below, so the fuel
never cuts the loop short; the pair returned is (final array, number of
strip iterations performed). -/
def clean_edges_aux (w : ℕ) : ℕ → Grid → ℚ → Grid × ℕ
  | 0, g, _ => (g, 0)
  | fuel + 1, g, s =>
    if has_noise g w && decide (0 < s) then
      let r := clean_edges_aux w fuel (remove_edges w g) (s - 1)
      (r.1, r.2 + 1)
    else (g, 0)

/-- The initial safety counter of _clean_edges: np.min(shape) / 10 (true
division, so in general a non-integer rational). -/
def safetyStop (g : Grid) : ℚ :=
  ((min (gridRows g) (gridCols g) : ℕ) : ℚ) / 10

/-- WLImage._clean_edges with window_size w: returns the cleaned array and
the number of border strips performed. -/
def clean_edges (g : Grid) (w : ℕ) : Grid × ℕ :=
  clean_edges_aux w (Int.toNat ⌈safetyStop g⌉) g (safetyStop g)

/-- Image used to refute the claimed iteration bound: a 5 by 5 array of
value 100 with one extreme corner pixel, whose border band keeps the noise
test true while np.min(shape)/10 = 1/2 admits one strip iteration. -/
def img9 : Grid :=
  [[1000000, 100, 100, 100, 100],
   [100, 100, 100, 100, 100],
   [100, 100, 100, 100, 100],
   [100, 100, 100, 100, 100],
   [100, 100, 100, 100, 100]]

/-- core.image as_binary, modelled from the spec: the binary mask of pixels
at or above the threshold. -/
def as_binary (thresh : ℚ) (g : Grid) : Mask :=
  g.map (fun r => r.map (fun v => decide (thresh ≤ v)))

/-- Mask lookup with out-of-bounds reading false (scipy border_value = 0). -/
def maskGet (m : Mask) (r c : ℤ) : Bool :=
  if r < 0 ∨ c < 0 then false
  else ((m.getD r.toNat []).getD c.toNat false)

/-- One output pixel of scipy.ndimage.binary_erosion with the default
cross-shaped structuring element: the pixel and its 4 neighbours. -/
def erodeAt (m : Mask) (r c : ℤ) : Bool :=
  maskGet m r c && maskGet m (r - 1) c && maskGet m (r + 1) c
    && maskGet m r (c - 1) && maskGet m r (c + 1)

/-- scipy.ndimage.binary_erosion with the default structuring element and
border_value 0. -/
def binary_erosion (m : Mask) : Mask :=
  (List.range m.length).map (fun r =>
    (List.range ((m.getD r []).length)).map (fun c => erodeAt m (r : ℤ) (c : ℤ)))

/-- The row-major list of coordinates of the true pixels of a mask. -/
def onCells (m : Mask) : List (ℕ × ℕ) :=
  cat ((List.range m.length).map (fun r =>
    (List.range ((m.getD r []).length)).filterMap (fun c =>
      if (m.getD r []).getD c false then some (r, c) else none)))

/-- Minimum of a list of naturals (0 for the empty list). -/
def natsMin : List ℕ → ℕ
  | [] => 0
  | x :: xs => xs.foldl min x

/-- Maximum of a list of naturals (0 for the empty list). -/
def natsMax : List ℕ → ℕ
  | [] => 0
  | x :: xs => xs.foldl max x

/-- Modelled from the spec: core.mask.bounding_box (not under src/) returns
(ymin, ymax, xmin, xmax) of the on-pixels, with exclusive max edges so that
ymax - ymin is the pixel height. -/
def bounding_box (m : Mask) : ℚ × ℚ × ℚ × ℚ :=
  let cs := onCells m
  if cs.isEmpty then (0, 0, 0, 0)
  else (((natsMin (cs.map Prod.fst) : ℕ) : ℚ), ((natsMax (cs.map Prod.fst) : ℕ) : ℚ) + 1,
        ((natsMin (cs.map Prod.snd) : ℕ) : ℚ), ((natsMax (cs.map Prod.snd) : ℕ) : ℚ) + 1)

/-- scipy.ndimage.measurements.center_of_mass of a binary array: the mean
(row, col) coordinate of the on-pixels. -/
def center_of_mass (m : Mask) : ℚ × ℚ :=
  let cs := onCells m
  let n : ℚ := ((cs.length : ℕ) : ℚ)
  ((cs.map (fun p => ((p.1 : ℕ) : ℚ))).sum / n, (cs.map (fun p => ((p.2 : ℕ) : ℚ))).sum / n)

/-- WLImage._find_field_centroid: threshold at the midpoint of the 5th and
99.9th percentiles, erode once, take the eroded bounding box expanded by 10
on each side, and return the center of mass of the non-eroded mask as the
CAX point (x = column coordinate, y = row coordinate). -/
def find_field_centroid (g : Grid) : Point × (ℚ × ℚ × ℚ × ℚ) :=
  let mn := percentile 5 (cat g)
  let mx := percentile (999/10) (cat g)
  let threshold_img := as_binary ((mx - mn) / 2 + mn) g
  let cleaned_img := binary_erosion threshold_img
  let e := bounding_box cleaned_img
  let edges := (e.1 - 10, e.2.1 + 10, e.2.2.1 - 10, e.2.2.2 + 10)
  let coords := center_of_mass threshold_img
  (⟨coords.2, coords.1, 0⟩, edges)

/-- Synthetic field image for the centroid claim: 10 by 10, background 0,
with a high-intensity rectangle on rows 3..7 and columns 3..6. -/
def img7 : Grid :=
  (List.range 10).map (fun r => (List.range 10).map (fun c =>
    if 3 ≤ r ∧ r ≤ 7 ∧ 3 ≤ c ∧ c ≤ 6 then 100 else 0))

/-- Adjacency of grid cells under the default scipy 4-connectivity. -/
def adjacentCell (p q : ℕ × ℕ) : Bool :=
  (p.1 == q.1 && (p.2 == q.2 + 1 || q.2 == p.2 + 1))
    || (p.2 == q.2 && (p.1 == q.1 + 1 || q.1 == p.1 + 1))

/-- Grow one connected component: repeatedly move the cells adjacent to the
component from the rest into the component; the fuel (the number of
remaining cells) bounds the iterations.  Returns (component, leftover). -/
def growComp : ℕ → List (ℕ × ℕ) → List (ℕ × ℕ) → List (ℕ × ℕ) × List (ℕ × ℕ)
  | 0, comp, rest => (comp, rest)
  | fuel + 1, comp, rest =>
    let adj := rest.filter (fun p => comp.any (fun q => adjacentCell p q))
    if adj.isEmpty then (comp, rest)
    else growComp fuel (comp ++ adj)
      (rest.filter (fun p => !(comp.any (fun q => adjacentCell p q))))

/-- Split a cell list into connected components in scanning order. -/
def compsAux : ℕ → List (ℕ × ℕ) → List (List (ℕ × ℕ))
  | _, [] => []
  | 0, _ :: _ => []
  | fuel + 1, p :: rest =>
    let gr := growComp rest.length [p] rest
    gr.1 :: compsAux fuel gr.2

/-- scipy.ndimage.measurements.label with the default structuring element:
the 4-connected components of the true pixels in scanning order; component k
carries label k + 1 and label 0 is the background. -/
def labelComponents (m : Mask) : List (List (ℕ × ℕ)) :=
  compsAux (onCells m).length (onCells m)

/-- The label of a cell: the index of its component plus 1, or 0 for the
background. -/
def labelOf (comps : List (List (ℕ × ℕ))) (c : ℕ × ℕ) : ℕ :=
  match comps.findIdx? (fun comp => comp.contains c) with
  | some k => k + 1
  | none => 0

/-- np.histogram(labeled_arr, bins=num_roi+1): with integer labels
0..num_roi the equally spaced bins hold exactly one label each, so this is
the per-label pixel count, background (label 0) first. -/
def roiSizes (m : Mask) (comps : List (List (ℕ × ℕ))) : List ℕ :=
  ((cat m).length - (onCells m).length) :: comps.map List.length

/-- Insertion step of the stable ascending argsort on (index, value) pairs:
a pair goes after all strictly smaller values and after equal values that
came earlier. -/
def insPair (x : ℕ × ℕ) : List (ℕ × ℕ) → List (ℕ × ℕ)
  | [] => [x]
  | y :: ys => if y.2 < x.2 then y :: insPair x ys else x :: y :: ys

/-- Stable insertion sort of (index, value) pairs by value. -/
def sortPairs : List (ℕ × ℕ) → List (ℕ × ℕ)
  | [] => []
  | x :: xs => insPair x (sortPairs xs)

/-- np.argsort of the size list: the indices ordered by ascending value
(ties in original order; numpy leaves the tie order unspecified and this is
one deterministic refinement). -/
def argsortAsc (l : List ℕ) : List ℕ :=
  (sortPairs ((List.range l.length).zip l)).map Prod.fst

/-- The bw_bb_img of one _find_bb iteration: the pixels whose label equals
the selected label (np.where(labeled_arr == sel, 1, 0)). -/
def bwOf (m : Mask) (comps : List (List (ℕ × ℕ))) (sel : ℕ) : Mask :=
  (List.range m.length).map (fun r =>
    (List.range ((m.getD r []).length)).map (fun c => labelOf comps (r, c) == sel))

/-- is_symmetric: the bounding-box height and width of the component differ
by no more than 5 percent or 3 pixels, whichever is looser. -/
def is_symmetric (m : Mask) : Bool :=
  let e := bounding_box m
  let y := |e.2.1 - e.1|
  let x := |e.2.2.2 - e.2.2.1|
  !(decide (x > max (y * 1.05) (y + 3)) || decide (x < min (y * 0.95) (y - 3)))

/-- is_modest_size: the component pixel count lies strictly between 0.3 and
30 percent of the field bounding-box area. -/
def is_modest_size (m : Mask) (field_bounding_box : ℚ × ℚ × ℚ × ℚ) : Bool :=
  let bbox := field_bounding_box
  let rad_field_area := (bbox.2.1 - bbox.1) * (bbox.2.2.2 - bbox.2.2.1)
  decide (rad_field_area * 0.003 < (((onCells m).length : ℕ) : ℚ))
    && decide ((((onCells m).length : ℕ) : ℚ) < rad_field_area * 0.3)

/-- Modelled from the spec: core.mask.filled_area_ratio (not under src/) is
the ratio of the filled pixel area to the bounding-box area. -/
def filled_area_ratio (m : Mask) : ℚ :=
  let e := bounding_box m
  (((onCells m).length : ℕ) : ℚ) / ((e.2.1 - e.1) * (e.2.2.2 - e.2.2.1))

/-- Rational value of the float np.pi. -/
def piRat : ℚ := 3.141592653589793

/-- is_round: the fill ratio lies within 20 percent of pi/4. -/
def is_round (m : Mask) : Bool :=
  let expected_fill_ratio := piRat / 4
  decide (expected_fill_ratio * 1.2 > filled_area_ratio m)
    && decide (filled_area_ratio m > expected_fill_ratio * 0.8)

/-- Modelled from the spec: core.image invert (not under src/): reflect the
intensities about the data range, v to -v + max + min. -/
def invertGrid (g : Grid) : Grid :=
  let mx := listMax (cat g)
  let mn := listMin (cat g)
  g.map (fun r => r.map (fun v => -v + mx + mn))

/-- np.abs(np.average(mask, weights=w, axis=0)): per-column weighted average
of the 0/1 mask values (0 when the weights sum to 0, as rational division by
zero). -/
def weightedColAverage (m : Mask) (w : Grid) : List ℚ :=
  (List.range (gridCols w)).map (fun c =>
    let num := ((List.range (gridRows w)).map (fun r =>
      if (m.getD r []).getD c false then (w.getD r []).getD c 0 else 0)).sum
    let den := ((List.range (gridRows w)).map (fun r => (w.getD r []).getD c 0)).sum
    |num / den|)

/-- np.abs(np.average(mask, weights=w, axis=1)): per-row weighted average. -/
def weightedRowAverage (m : Mask) (w : Grid) : List ℚ :=
  (List.range (gridRows w)).map (fun r =>
    let num := ((List.range (gridCols w)).map (fun c =>
      if (m.getD r []).getD c false then (w.getD r []).getD c 0 else 0)).sum
    let den := ((List.range (gridCols w)).map (fun c => (w.getD r []).getD c 0)).sum
    |num / den|)

/-- Left half-maximum crossing of a 1D profile, linearly interpolated
between the two neighbouring samples. -/
def halfMaxLeft (arr : List ℚ) (half : ℚ) : ℚ :=
  match arr.findIdx? (fun v => decide (half ≤ v)) with
  | none => 0
  | some 0 => 0
  | some (i + 1) =>
    let a := arr.getD i 0
    let b := arr.getD (i + 1) 0
    (i : ℚ) + (half - a) / (b - a)

/-- Modelled from the spec: SingleProfile.fwxm_center with interpolation
(not under src/): the midpoint of the two half-maximum crossings of the
profile, each linearly interpolated between samples. -/
def fwxm_center (arr : List ℚ) : ℚ :=
  let half := listMax arr / 2
  let left := halfMaxLeft arr half
  let right := (((arr.length : ℕ) : ℚ) - 1) - halfMaxLeft arr.reverse half
  (left + right) / 2

/-- The subpixel BB center computed by _find_bb after a component is
accepted: profiles of the component mask weighted by the inverted image,
half-maximum interpolated on each axis (x from columns, y from rows). -/
def bb_center (g : Grid) (bw : Mask) : Point :=
  let inv := invertGrid g
  ⟨fwxm_center (weightedColAverage bw inv), fwxm_center (weightedRowAverage bw inv), 0⟩

/-- One iteration of the _find_bb search at the given thresholds: mask the
pixels with lower <= value < upper, label the components, select the third
largest histogram bin by pixel count (the IndexError of argsort[-3] fires
when fewer than 3 bins exist, that is fewer than 2 labeled components), and
require the three shape criteria; none models the caught IndexError or
ValueError, some carries the accepted bw image. -/
def bb_candidate (g : Grid) (field_box : ℚ × ℚ × ℚ × ℚ) (max_thresh lower_thresh : ℚ) :
    Option Mask :=
  let binary_arr : Mask := g.map (fun r => r.map (fun v =>
    decide (v < max_thresh) && decide (lower_thresh ≤ v)))
  let comps := labelComponents binary_arr
  let sizes := roiSizes binary_arr comps
  if sizes.length < 3 then none
  else
    let sel := (argsortAsc sizes).getD (sizes.length - 3) 0
    let bw := bwOf binary_arr comps sel
    if is_round bw && is_modest_size bw field_box && is_symmetric bw then some bw else none

/-- The 5th percentile hmin of _find_bb. -/
def bb_hmin (g : Grid) : ℚ := percentile 5 (cat g)

/-- The 99.9th percentile hmax of _find_bb. -/
def bb_hmax (g : Grid) : ℚ := percentile (999/10) (cat g)

/-- spread = hmax - hmin. -/
def bb_spread (g : Grid) : ℚ := bb_hmax g - bb_hmin g

/-- The fixed lower threshold of _find_bb: hmax - spread / 1.5. -/
def bb_lower (g : Grid) : ℚ := bb_hmax g - bb_spread g / 1.5

/-- The upper threshold after k lowerings: hmax - k * (0.05 * spread). -/
def bb_thresh (g : Grid) (k : ℕ) : ℚ := bb_hmax g - (k : ℚ) * (0.05 * bb_spread g)

/-- The detection-failure message of _find_bb. -/
def bbErrMsg : String :=
  "Unable to locate the BB. Make sure the field edges do not obscure the BB and that there is no artifacts in the images."

/-- Marker for the one behaviour the Python loop cannot produce in finite
time: with zero spread the threshold never decreases and the loop spins
forever; the fuelled embedding returns this error instead. -/
def divergeMsg : String := "threshold search does not terminate"

/-- The while-loop of _find_bb: try the current upper threshold; on failure
lower it by 0.05 * spread and raise the detection error when the lowered
threshold falls below hmin.  With positive spread at most 21 attempts can
happen, so fuel 22 never cuts the loop short. -/
def find_bb_loop (g : Grid) (field_box : ℚ × ℚ × ℚ × ℚ) :
    ℕ → ℚ → Except String Point
  | 0, _ => Except.error divergeMsg
  | fuel + 1, max_thresh =>
    match bb_candidate g field_box max_thresh (bb_lower g) with
    | some bw => Except.ok (bb_center g bw)
    | none =>
      if max_thresh - 0.05 * bb_spread g < bb_hmin g then Except.error bbErrMsg
      else find_bb_loop g field_box fuel (max_thresh - 0.05 * bb_spread g)

/-- WLImage._find_bb: the threshold-lowering search started at hmax. -/
def find_bb (g : Grid) (field_box : ℚ × ℚ × ℚ × ℚ) : Except String Point :=
  find_bb_loop g field_box 22 (bb_hmax g)

/-- The iteration attempt at the k-th upper threshold. -/
def bb_attempt_at (g : Grid) (field_box : ℚ × ℚ × ℚ × ℚ) (k : ℕ) : Option Mask :=
  bb_candidate g field_box (bb_thresh g k) (bb_lower g)

lemma is_close_iff (v d : ℚ) :
    is_close v [0, 360] d = true ↔ ((-d < v ∧ v < d) ∨ (360 - d < v ∧ v < 360 + d)) := by
  simp [is_close]

lemma keyLt_irrefl (a : ℚ × ℚ × ℚ) : keyLt a a = false := by
  simp [keyLt]

lemma keyLt_true_ne {a b : ℚ × ℚ × ℚ} (h : keyLt a b = true) : a ≠ b := by
  intro he
  rw [he, keyLt_irrefl] at h
  exact Bool.false_ne_true h

lemma filter_insertImg (x : WLImage) (l : List WLImage) (k : ℚ × ℚ × ℚ) :
    (insertImg x l).filter (fun i => sortKey i == k) =
      if sortKey x == k then x :: l.filter (fun i => sortKey i == k)
      else l.filter (fun i => sortKey i == k) := by
  induction l with
  | nil => cases hx : sortKey x == k <;> simp [insertImg, List.filter, hx]
  | cons y ys ih =>
    rw [insertImg]
    by_cases hlt : keyLt (sortKey y) (sortKey x) = true
    · rw [if_pos hlt, List.filter_cons, ih]
      by_cases hy : (sortKey y == k) = true
      · by_cases hx : (sortKey x == k) = true
        · exact absurd ((eq_of_beq hy).trans (eq_of_beq hx).symm) (keyLt_true_ne hlt)
        · simp [hy, hx, List.filter_cons]
      · simp [hy, List.filter_cons]
    · rw [if_neg hlt]
      by_cases hx : (sortKey x == k) = true
      · simp [hx, List.filter_cons]
      · simp [hx, List.filter_cons]

lemma filter_sortImages (l : List WLImage) (k : ℚ × ℚ × ℚ) :
    (sortImages l).filter (fun i => sortKey i == k) = l.filter (fun i => sortKey i == k) := by
  induction l with
  | nil => rfl
  | cons x xs ih =>
    rw [sortImages, filter_insertImg, ih, List.filter_cons]

lemma perm_insertImg (x : WLImage) (l : List WLImage) :
    List.Perm (insertImg x l) (x :: l) := by
  induction l with
  | nil => exact List.Perm.refl _
  | cons y ys ih =>
    rw [insertImg]
    by_cases hlt : keyLt (sortKey y) (sortKey x) = true
    · rw [if_pos hlt]
      exact (ih.cons y).trans (List.Perm.swap x y ys)
    · rw [if_neg hlt]

lemma perm_sortImages (l : List WLImage) : List.Perm (sortImages l) l := by
  induction l with
  | nil => exact List.Perm.refl _
  | cons x xs ih => exact (perm_insertImg x (sortImages xs)).trans (ih.cons x)

/-- C1: the source comment and docstring say the reported iso-to-BB vector is
the negation of the optimizer solution (origin-to-iso), but the code returns
the optimizer coordinates unchanged: at the optimizer solution (1, 2, 3) the
three properties return (1, 2, 3) / (1, 2) rather than the negated vector the
claim (and the surrounding documentation) requires. -/
theorem iso2bb_vector_sign_bug :
    gantry_iso2bb_vector ⟨1, 2, 3, 0, 0⟩ = ⟨1, 2, 3⟩
    ∧ gantry_iso2bb_vector ⟨1, 2, 3, 0, 0⟩ ≠ ⟨-1, -2, -3⟩
    ∧ collimator_iso2bb_vector ⟨1, 2, 3, 0, 0⟩ = ⟨1, 2, 0⟩
    ∧ collimator_iso2bb_vector ⟨1, 2, 3, 0, 0⟩ ≠ ⟨-1, -2, 0⟩
    ∧ couch_iso2bb_vector ⟨1, 2, 3, 0, 0⟩ = ⟨1, 2, 0⟩
    ∧ couch_iso2bb_vector ⟨1, 2, 3, 0, 0⟩ ≠ ⟨-1, -2, 0⟩ := by
  refine ⟨rfl, ?_, rfl, ?_, rfl, ?_⟩ <;> decide

/-- C2 counterexample: a collection of two Reference-classified images and
zero Couch-classified images; requesting the couch axis does NOT raise the
insufficient-data error but proceeds to the optimization (Except.ok), because
the guard only fires when at most one image qualifies. -/
theorem couch_reference_only_returns_ok :
    ([img0, mkImg 0 0 0 1].all (fun i => variable_axis i == Axis.reference)) = true
    ∧ ([img0, mkImg 0 0 0 1].all (fun i => !(variable_axis i == Axis.couch))) = true
    ∧ minimize_axis Axis.couch [img0, mkImg 0 0 0 1] = Except.ok [img0, mkImg 0 0 0 1] := by
  refine ⟨by decide, by decide, ?_⟩
  rfl

/-- C2 (amended): with zero Couch-classified images, requesting the couch
axis raises the insufficient-data error exactly when fewer than 2
Reference-classified images qualify; with 2 or more Reference images the
solver proceeds and returns a result. -/
theorem couch_error_iff_too_few_reference (imgs : List WLImage)
    (h : imgs.all (fun i => !(variable_axis i == Axis.couch)) = true) :
    minimize_axis Axis.couch imgs = Except.error notEnoughMsg ↔
      (imgs.filter (fun i => variable_axis i == Axis.reference)).length < 2 := by
  have hsel : axisThings Axis.couch imgs = imgs.filter (fun i => variable_axis i == Axis.reference) := by
    unfold axisThings
    apply List.filter_congr
    intro i hi
    have hnc := List.all_eq_true.mp h i hi
    cases hva : variable_axis i <;> simp_all
  by_cases h2 : (axisThings Axis.couch imgs).length ≤ 1
  · rw [← hsel]
    simp [minimize_axis, h2, Nat.lt_succ_iff]
  · rw [← hsel]
    simp [minimize_axis, h2, Nat.lt_succ_iff]

/-- Witness for the amended C2 theorem at a concrete one-image collection. -/
theorem couch_error_iff_too_few_reference_witness :
    ([img0].all (fun i => !(variable_axis i == Axis.couch)) = true)
    ∧ (minimize_axis Axis.couch [img0] = Except.error notEnoughMsg ↔
        ([img0].filter (fun i => variable_axis i == Axis.reference)).length < 2) :=
  ⟨by decide, couch_error_iff_too_few_reference [img0] (by decide)⟩

/-- C3: for every requested axis, the solver selects exactly the images whose
variable-axis class is the axis or Reference, raises the insufficient-data
error exactly when fewer than 2 such images exist, and otherwise returns the
optimization inputs without error. -/
theorem minimize_axis_selection :
    ∀ (a : Axis) (imgs : List WLImage),
      (∀ i : WLImage, i ∈ axisThings a imgs ↔
        (i ∈ imgs ∧ (variable_axis i = a ∨ variable_axis i = Axis.reference)))
      ∧ (minimize_axis a imgs = Except.error notEnoughMsg ↔ (axisThings a imgs).length < 2)
      ∧ (minimize_axis a imgs = Except.ok (axisThings a imgs) ↔
          2 ≤ (axisThings a imgs).length) := by
  intro a imgs
  refine ⟨?_, ?_, ?_⟩
  · intro i
    simp [axisThings, List.mem_filter]
  · by_cases h2 : (axisThings a imgs).length ≤ 1 <;>
      simp [minimize_axis, h2, Nat.lt_succ_iff]
  · by_cases h2 : (axisThings a imgs).length ≤ 1 <;>
      simp [minimize_axis, h2, Nat.lt_succ_iff]
    omega

/-- C5: the variable-axis classification is total and assigns Reference when
all three angles are within tolerance of 0/360, the single-deviation classes
when exactly one angle deviates, and Combo exactly when at least two angles
deviate; with the concrete examples of the spec. -/
theorem variable_axis_classification :
    (∀ i : WLImage,
      ((variable_axis i = Axis.reference) ↔
        (is_close (gantry_angle i) [0, 360] 1 = true
          ∧ is_close (collimator_angle i) [0, 360] 1 = true
          ∧ is_close (couch_angle i) [0, 360] 1 = true))
      ∧ ((variable_axis i = Axis.gantry) ↔
        (is_close (gantry_angle i) [0, 360] 1 = false
          ∧ is_close (collimator_angle i) [0, 360] 1 = true
          ∧ is_close (couch_angle i) [0, 360] 1 = true))
      ∧ ((variable_axis i = Axis.collimator) ↔
        (is_close (gantry_angle i) [0, 360] 1 = true
          ∧ is_close (collimator_angle i) [0, 360] 1 = false
          ∧ is_close (couch_angle i) [0, 360] 1 = true))
      ∧ ((variable_axis i = Axis.couch) ↔
        (is_close (gantry_angle i) [0, 360] 1 = true
          ∧ is_close (collimator_angle i) [0, 360] 1 = true
          ∧ is_close (couch_angle i) [0, 360] 1 = false))
      ∧ ((variable_axis i = Axis.combo) ↔
        ((is_close (gantry_angle i) [0, 360] 1 = false
            ∧ is_close (collimator_angle i) [0, 360] 1 = false)
          ∨ (is_close (gantry_angle i) [0, 360] 1 = false
            ∧ is_close (couch_angle i) [0, 360] 1 = false)
          ∨ (is_close (collimator_angle i) [0, 360] 1 = false
            ∧ is_close (couch_angle i) [0, 360] 1 = false))))
    ∧ variable_axis (mkImg 0 0 0 0) = Axis.reference
    ∧ variable_axis (mkImg 45 0 0 0) = Axis.gantry
    ∧ variable_axis (mkImg 0 30 0 0) = Axis.collimator
    ∧ variable_axis (mkImg 0 0 20 0) = Axis.couch
    ∧ variable_axis (mkImg 45 30 0 0) = Axis.combo := by
  refine ⟨?_, by decide, by decide, by decide, by decide, by decide⟩
  intro i
  cases hG : is_close (gantry_angle i) [0, 360] 1 <;>
    cases hB : is_close (collimator_angle i) [0, 360] 1 <;>
      cases hP : is_close (couch_angle i) [0, 360] 1 <;>
        simp [variable_axis, hG, hB, hP]

/-- C6: the longitudinal offsets return the negated y component of the
respective CAX-to-BB / CAX-to-EPID vector exactly when the couch angle is
within tolerance (2 degrees) of 0/360, and no value (none) otherwise; with
concrete in-tolerance and out-of-tolerance examples. -/
theorem z_offset_defined_iff :
    (∀ i : WLImage,
      (∀ v : ℚ, bb_z_offset i = some v ↔
        (is_close (couch_angle i) [0, 360] 2 = true ∧ v = -(cax2bb_vector i).y))
      ∧ (bb_z_offset i = none ↔ is_close (couch_angle i) [0, 360] 2 = false)
      ∧ (∀ v : ℚ, epid_z_offset i = some v ↔
        (is_close (couch_angle i) [0, 360] 2 = true ∧ v = -(cax2epid_vector i).y))
      ∧ (epid_z_offset i = none ↔ is_close (couch_angle i) [0, 360] 2 = false))
    ∧ bb_z_offset (mkImg 0 0 (3/2) 0) = some 0
    ∧ bb_z_offset (mkImg 0 0 20 0) = none
    ∧ epid_z_offset (mkImg 0 0 20 0) = none := by
  refine ⟨?_, by decide, by decide, by decide⟩
  intro i
  cases h : is_close (couch_angle i) [0, 360] 2 <;>
    simp [bb_z_offset, epid_z_offset, h, eq_comm]

/-- C10: each public angle property returns 0 exactly when the raw metadata
angle lies within 1 degree of 0 or of 360, and the raw angle unchanged
otherwise; a recorded angle of 359.5 is reported as 0, classified Reference,
and sorted under the key (0, 0, 0). -/
theorem angle_snapping :
    (∀ i : WLImage,
      (((-1 < i.rawGantry ∧ i.rawGantry < 1) ∨ (359 < i.rawGantry ∧ i.rawGantry < 361)) →
        gantry_angle i = 0)
      ∧ (¬((-1 < i.rawGantry ∧ i.rawGantry < 1) ∨ (359 < i.rawGantry ∧ i.rawGantry < 361)) →
        gantry_angle i = i.rawGantry)
      ∧ (((-1 < i.rawColl ∧ i.rawColl < 1) ∨ (359 < i.rawColl ∧ i.rawColl < 361)) →
        collimator_angle i = 0)
      ∧ (¬((-1 < i.rawColl ∧ i.rawColl < 1) ∨ (359 < i.rawColl ∧ i.rawColl < 361)) →
        collimator_angle i = i.rawColl)
      ∧ (((-1 < i.rawCouch ∧ i.rawCouch < 1) ∨ (359 < i.rawCouch ∧ i.rawCouch < 361)) →
        couch_angle i = 0)
      ∧ (¬((-1 < i.rawCouch ∧ i.rawCouch < 1) ∨ (359 < i.rawCouch ∧ i.rawCouch < 361)) →
        couch_angle i = i.rawCouch))
    ∧ gantry_angle (mkImg (719/2) 0 0 0) = 0
    ∧ variable_axis (mkImg (719/2) (719/2) (719/2) 0) = Axis.reference
    ∧ sortKey (mkImg (719/2) (719/2) (719/2) 0) = (0, 0, 0) := by
  have hiff : ∀ v : ℚ, is_close v [0, 360] 1 = true ↔
      ((-1 < v ∧ v < 1) ∨ (359 < v ∧ v < 361)) := by
    intro v
    rw [is_close_iff]
    norm_num
  refine ⟨?_, by decide, by decide, by decide⟩
  intro i
  refine ⟨?_, ?_, ?_, ?_, ?_, ?_⟩ <;> intro h
  · rw [gantry_angle, if_pos ((hiff _).mpr h)]
  · rw [gantry_angle, if_neg (fun hc => h ((hiff _).mp hc))]
  · rw [collimator_angle, if_pos ((hiff _).mpr h)]
  · rw [collimator_angle, if_neg (fun hc => h ((hiff _).mp hc))]
  · rw [couch_angle, if_pos ((hiff _).mpr h)]
  · rw [couch_angle, if_neg (fun hc => h ((hiff _).mp hc))]

/-- Witness for the angle-snapping theorem at concrete raw angles 359.5
(snapped to 0) and 45 (returned unchanged). -/
theorem angle_snapping_witness :
    gantry_angle (mkImg (719/2) 45 0 0) = 0
    ∧ collimator_angle (mkImg (719/2) 45 0 0) = 45 :=
  ⟨((angle_snapping.1 (mkImg (719/2) 45 0 0)).1 (by decide)),
   ((angle_snapping.1 (mkImg (719/2) 45 0 0)).2.2.2.1 (by decide))⟩

/-- C8: after construction the collection is sorted ascending by the angle
tuple with a stable sort and no duplicate removal: every insertion order of
the images at (90,0,0), (0,0,0), (270,0,0) ends as (0,0,0), (90,0,0),
(270,0,0); the sublist of images with any fixed key is unchanged by the sort
(stability); and the sorted list is a permutation of the input (nothing is
dropped). -/
theorem image_collection_ordering :
    sortImages [img0, img90, img270] = [img0, img90, img270]
    ∧ sortImages [img0, img270, img90] = [img0, img90, img270]
    ∧ sortImages [img90, img0, img270] = [img0, img90, img270]
    ∧ sortImages [img90, img270, img0] = [img0, img90, img270]
    ∧ sortImages [img270, img0, img90] = [img0, img90, img270]
    ∧ sortImages [img270, img90, img0] = [img0, img90, img270]
    ∧ (∀ (l : List WLImage) (k : ℚ × ℚ × ℚ),
        (sortImages l).filter (fun i => sortKey i == k) = l.filter (fun i => sortKey i == k))
    ∧ (∀ l : List WLImage, List.Perm (sortImages l) l) :=
  ⟨by decide, by decide, by decide, by decide, by decide, by decide,
   filter_sortImages, perm_sortImages⟩

/-- C7 counterexample: on the synthetic rectangular field (rows 3..7,
columns 3..6 of a 10 by 10 array) the detector's returned box is
(-6, 17, -6, 16), which is NOT the rectangle's extents expanded by the
margin 10 on each side (neither with exclusive extents (3, 8, 3, 7) nor with
inclusive extents (3, 7, 3, 6)): the one-pass erosion shrinks the bounding
box by one pixel per side first.  The returned center does equal the
rectangle's geometric center (4.5, 5). -/
theorem field_centroid_box_not_extents_plus_margin :
    (find_field_centroid img7).1 = ⟨9/2, 5, 0⟩
    ∧ (find_field_centroid img7).2 = (-6, 17, -6, 16)
    ∧ (find_field_centroid img7).2 ≠ (3 - 10, 8 + 10, 3 - 10, 7 + 10)
    ∧ (find_field_centroid img7).2 ≠ (3 - 10, 7 + 10, 3 - 10, 6 + 10) := by
  exact ⟨by decide, by decide, by decide, by decide⟩

/-- C7 (amended): the field detector thresholds at the midpoint of the 5th
and 99.9th percentiles, returns the eroded mask's bounding box expanded by
10 on each side, and the center of mass of the non-eroded mask; for the
synthetic rectangle this gives the rectangle's geometric center, and the
rectangle's extents first shrunk by one pixel per side (the erosion pass)
and then expanded by the margin 10. -/
theorem field_centroid_synthetic_rect :
    (find_field_centroid img7).1 = ⟨(3 + 6) / 2, (3 + 7) / 2, 0⟩
    ∧ (find_field_centroid img7).2 = ((3 + 1) - 10, (8 - 1) + 10, (3 + 1) - 10, (7 - 1) + 10) := by
  exact ⟨by decide, by decide⟩

lemma clean_edges_aux_count_le (w : ℕ) :
    ∀ (fuel : ℕ) (g : Grid) (s : ℚ), (clean_edges_aux w fuel g s).2 ≤ fuel := by
  intro fuel
  induction fuel with
  | zero => intro g s; simp [clean_edges_aux]
  | succ f ih =>
    intro g s
    rw [clean_edges_aux]
    by_cases h : (has_noise g w && decide (0 < s)) = true
    · rw [if_pos h]
      exact Nat.succ_le_succ (ih (remove_edges w g) (s - 1))
    · rw [if_neg h]
      exact Nat.zero_le _

lemma clean_edges_aux_noise (w : ℕ) :
    ∀ (fuel : ℕ) (g : Grid) (s : ℚ) (i : ℕ), i < (clean_edges_aux w fuel g s).2 →
      has_noise ((remove_edges w)^[i] g) w = true := by
  intro fuel
  induction fuel with
  | zero => intro g s i h; simp [clean_edges_aux] at h
  | succ f ih =>
    intro g s i h
    rw [clean_edges_aux] at h
    by_cases hg : (has_noise g w && decide (0 < s)) = true
    · rw [if_pos hg] at h
      cases i with
      | zero => simpa using ((Bool.and_eq_true _ _).mp hg).1
      | succ j =>
        rw [Function.iterate_succ_apply]
        exact ih (remove_edges w g) (s - 1) j (Nat.lt_of_succ_lt_succ h)
    · rw [if_neg hg] at h
      exact absurd h (Nat.not_lt_zero i)

/-- C9 (amended): the edge-cleaning loop always terminates; it strips the
border band only while the band holds a pixel more than 10 percent of the
percentile range below near_min or above near_max, and it performs at most
the ceiling of (smaller image dimension)/10 stripping iterations (the exact
count admitted by the decrementing rational safety counter). -/
theorem clean_edges_safety_bound :
    ∀ (g : Grid) (w : ℕ),
      (clean_edges g w).2 ≤ Int.toNat ⌈safetyStop g⌉
      ∧ (∀ i : ℕ, i < (clean_edges g w).2 → has_noise ((remove_edges w)^[i] g) w = true) := by
  intro g w
  exact ⟨clean_edges_aux_count_le w _ g _, fun i h => clean_edges_aux_noise w _ g _ i h⟩

/-- Witness for the edge-cleaning bound at the concrete noisy 5 by 5 image. -/
theorem clean_edges_safety_bound_witness :
    (clean_edges img9 2).2 ≤ Int.toNat ⌈safetyStop img9⌉
    ∧ (∀ i : ℕ, i < (clean_edges img9 2).2 → has_noise ((remove_edges 2)^[i] img9) 2 = true) :=
  clean_edges_safety_bound img9 2

/-- C9 counterexample: on the 5 by 5 image with one extreme corner pixel the
loop performs 1 stripping iteration, which exceeds the claimed bound of
(smaller image dimension)/10 = 1/2 iterations. -/
theorem clean_edges_exceeds_claimed_bound :
    (clean_edges img9 2).2 = 1
    ∧ safetyStop img9 < (((clean_edges img9 2).2 : ℕ) : ℚ) := by
  exact ⟨by decide, by decide⟩

lemma bb_thresh_succ (g : Grid) (k : ℕ) :
    bb_thresh g k - 0.05 * bb_spread g = bb_thresh g (k + 1) := by
  unfold bb_thresh
  push_cast
  ring

lemma bb_thresh_not_below (g : Grid) (h : bb_hmin g < bb_hmax g) {k : ℕ} (hk : k + 1 ≤ 20) :
    ¬(bb_thresh g (k + 1) < bb_hmin g) := by
  intro hlt
  unfold bb_thresh bb_spread at hlt
  have hk2 : ((k : ℚ) + 1) ≤ 20 := by exact_mod_cast hk
  have hs : (0 : ℚ) ≤ bb_hmax g - bb_hmin g := by linarith
  have h1 : ((k : ℚ) + 1) * (0.05 * (bb_hmax g - bb_hmin g)) ≤
      20 * (0.05 * (bb_hmax g - bb_hmin g)) := by
    have h05 : (0 : ℚ) ≤ 0.05 * (bb_hmax g - bb_hmin g) := by
      have : (0 : ℚ) ≤ (0.05 : ℚ) := by norm_num
      exact mul_nonneg this hs
    exact mul_le_mul_of_nonneg_right hk2 h05
  have h2 : (20 : ℚ) * (0.05 * (bb_hmax g - bb_hmin g)) = bb_hmax g - bb_hmin g := by
    ring
  push_cast at hlt
  linarith

lemma bb_thresh_21_below (g : Grid) (h : bb_hmin g < bb_hmax g) :
    bb_thresh g 21 < bb_hmin g := by
  unfold bb_thresh bb_spread
  push_cast
  nlinarith

lemma find_bb_loop_succ_some (g : Grid) (fb : ℚ × ℚ × ℚ × ℚ) (f : ℕ) (mt : ℚ) (bw : Mask)
    (hc : bb_candidate g fb mt (bb_lower g) = some bw) :
    find_bb_loop g fb (f + 1) mt = Except.ok (bb_center g bw) := by
  simp only [find_bb_loop, hc]

lemma find_bb_loop_succ_none (g : Grid) (fb : ℚ × ℚ × ℚ × ℚ) (f : ℕ) (mt : ℚ)
    (hc : bb_candidate g fb mt (bb_lower g) = none) :
    find_bb_loop g fb (f + 1) mt =
      (if mt - 0.05 * bb_spread g < bb_hmin g then Except.error bbErrMsg
       else find_bb_loop g fb f (mt - 0.05 * bb_spread g)) := by
  simp only [find_bb_loop, hc]

lemma find_bb_loop_all_fail (g : Grid) (fb : ℚ × ℚ × ℚ × ℚ) (h : bb_hmin g < bb_hmax g) :
    ∀ (f k : ℕ), k ≤ 20 → 21 - k ≤ f →
      (∀ j : ℕ, k ≤ j → j ≤ 20 → bb_attempt_at g fb j = none) →
      find_bb_loop g fb f (bb_thresh g k) = Except.error bbErrMsg := by
  intro f
  induction f with
  | zero => intro k hk hf hall; omega
  | succ f ih =>
    intro k hk hf hall
    have hk0 : bb_candidate g fb (bb_thresh g k) (bb_lower g) = none := hall k le_rfl hk
    rw [find_bb_loop_succ_none g fb f _ hk0, bb_thresh_succ]
    by_cases hk20 : k = 20
    · subst hk20
      rw [if_pos (bb_thresh_21_below g h)]
    · have hk1 : k + 1 ≤ 20 := by omega
      rw [if_neg (bb_thresh_not_below g h hk1)]
      exact ih (k + 1) (by omega) (by omega) (fun j hj1 hj2 => hall j (by omega) hj2)

lemma find_bb_loop_first_success (g : Grid) (fb : ℚ × ℚ × ℚ × ℚ)
    (h : bb_hmin g < bb_hmax g) :
    ∀ (f k j : ℕ) (bw : Mask), k ≤ 20 → 21 - k ≤ f → k ≤ j → j ≤ 20 →
      bb_attempt_at g fb j = some bw →
      (∀ i : ℕ, k ≤ i → i < j → bb_attempt_at g fb i = none) →
      find_bb_loop g fb f (bb_thresh g k) = Except.ok (bb_center g bw) := by
  intro f
  induction f with
  | zero => intro k j bw hk hf; omega
  | succ f ih =>
    intro k j bw hk hf hkj hj hsome hnone
    by_cases hjk : j = k
    · subst hjk
      exact find_bb_loop_succ_some g fb f _ bw hsome
    · have hklt : k < j := by omega
      have hk0 : bb_candidate g fb (bb_thresh g k) (bb_lower g) = none :=
        hnone k le_rfl hklt
      rw [find_bb_loop_succ_none g fb f _ hk0, bb_thresh_succ]
      have hk1 : k + 1 ≤ 20 := by omega
      rw [if_neg (bb_thresh_not_below g h hk1)]
      exact ih (k + 1) j bw (by omega) (by omega) (by omega) hj hsome
        (fun i h1 h2 => hnone i (by omega) h2)

lemma find_bb_as_loop (g : Grid) (fb : ℚ × ℚ × ℚ × ℚ) :
    find_bb g fb = find_bb_loop g fb 22 (bb_thresh g 0) := by
  have h0 : bb_thresh g 0 = bb_hmax g := by
    unfold bb_thresh
    push_cast
    ring
  rw [find_bb, h0]

/-- C4: the BB search loop tries the upper thresholds hmax - k*(0.05*spread)
in order; provided the intensity spread is positive (hmin < hmax, true for
any non-constant image), the locator raises the BB-not-found detection error
exactly when all 21 admissible attempts (k = 0..20; the 21st lowering drops
the threshold below hmin) fail, and otherwise returns the subpixel center
computed from the first accepted component in this descending-threshold
order.  Each attempt fails precisely on the IndexError of fewer than 3
histogram bins or on a failed shape criterion (bb_candidate). -/
theorem find_bb_search_loop (g : Grid) (fb : ℚ × ℚ × ℚ × ℚ)
    (h : bb_hmin g < bb_hmax g) :
    (find_bb g fb = Except.error bbErrMsg ↔
      (∀ k : ℕ, k ≤ 20 → bb_attempt_at g fb k = none))
    ∧ (∀ (k : ℕ) (bw : Mask), k ≤ 20 → bb_attempt_at g fb k = some bw →
        (∀ j : ℕ, j < k → bb_attempt_at g fb j = none) →
        find_bb g fb = Except.ok (bb_center g bw)) := by
  constructor
  · constructor
    · intro herr k hk
      by_contra hne
      have hexP : ∃ n, ¬(bb_attempt_at g fb n = none) := ⟨k, hne⟩
      have hPn : ¬(bb_attempt_at g fb (Nat.find hexP) = none) := Nat.find_spec hexP
      have hnle : Nat.find hexP ≤ k := Nat.find_min' hexP hne
      cases hbw : bb_attempt_at g fb (Nat.find hexP) with
      | none => exact hPn hbw
      | some bw =>
        have hok := find_bb_loop_first_success g fb h 22 0 (Nat.find hexP) bw
          (by omega) (by omega) (Nat.zero_le _) (by omega) hbw
          (fun i h1 h2 => by
            by_contra hne2
            exact absurd (Nat.find_min' hexP hne2) (by omega))
        rw [find_bb_as_loop, hok] at herr
        exact Except.noConfusion herr
    · intro hall
      rw [find_bb_as_loop]
      exact find_bb_loop_all_fail g fb h 22 0 (by omega) (by omega)
        (fun j hj1 hj2 => hall j hj2)
  · intro k bw hk hsome hnone
    rw [find_bb_as_loop]
    exact find_bb_loop_first_success g fb h 22 0 k bw (by omega) (by omega)
      (Nat.zero_le _) hk hsome (fun i h1 h2 => hnone i h2)

/-- Witness: the BB search-loop specification instantiated at a concrete
1 by 2 image whose percentile spread is positive (hmin = 5 < 99.9 = hmax). -/
theorem find_bb_search_loop_witness :
    (bb_hmin ([[0, 100]] : Grid) < bb_hmax ([[0, 100]] : Grid))
    ∧ ((find_bb ([[0, 100]] : Grid) (0, 10, 0, 10) = Except.error bbErrMsg ↔
        (∀ k : ℕ, k ≤ 20 → bb_attempt_at ([[0, 100]] : Grid) (0, 10, 0, 10) k = none))
      ∧ (∀ (k : ℕ) (bw : Mask), k ≤ 20 →
          bb_attempt_at ([[0, 100]] : Grid) (0, 10, 0, 10) k = some bw →
          (∀ j : ℕ, j < k → bb_attempt_at ([[0, 100]] : Grid) (0, 10, 0, 10) j = none) →
          find_bb ([[0, 100]] : Grid) (0, 10, 0, 10) =
            Except.ok (bb_center ([[0, 100]] : Grid) bw))) :=
  ⟨by decide, find_bb_search_loop ([[0, 100]] : Grid) (0, 10, 0, 10) (by decide)⟩

end WinstonLutz
